import Mathlib

/-!
Shallow embedding of `flex/interactive/sdk/python/setup.py`, the packaging
script of the `gs_interactive` client SDK, focused on the `BuildProto`
command (`generate_proto` and `run`).

The filesystem is modelled as an explicit state (a list of file paths and a
list of directory paths); the behaviour of the external compiler
(`subprocess.check_call` on `python -m grpc_tools.protoc ...`) is an oracle
`exec : List String → Bool` saying whether a given command line exits with
status 0.  Each run of `generate_proto` / `run` produces the resulting
filesystem state, the ordered trace of its own effects (the `os.makedirs`
call and every spawned compiler subprocess with its full argument list),
and the error it raises, if any.
-/

set_option autoImplicit false

namespace BuildProtoModel

/-- Character-list versions of the string operations used by the script, so
that every predicate evaluates by kernel reduction. -/
def strStartsWith (s p : String) : Bool := p.data.isPrefixOf s.data

def strEndsWith (s p : String) : Bool := p.data.isSuffixOf s.data

def strContainsChar (s : String) (c : Char) : Bool := s.data.contains c

def strDropData (s : String) (n : Nat) : String := String.mk (s.data.drop n)

/-- Filesystem state: the file paths and directory paths that exist.
`files` holds regular files (in particular the `.proto` sources),
`dirs` the directories. -/
structure FileSystem where
  files : List String
  dirs : List String
deriving DecidableEq, Repr

/-- Interpreter state used by the script: `sys.executable`. -/
structure Env where
  sysExecutable : String
deriving DecidableEq, Repr

/-- Embedding of `os.path.exists`: true when the path exists as a file or
as a directory. -/
def pathExists (fs : FileSystem) (p : String) : Bool :=
  fs.files.contains p || fs.dirs.contains p

/-- Embedding of `os.path.join(a, b)` for the cases the script exercises:
an absolute second component stands alone; otherwise the components are
joined with a single separator. -/
def osPathJoin (a b : String) : String :=
  if strStartsWith b "/" then b
  else if a = "" then b
  else if strEndsWith a "/" then a ++ b
  else a ++ "/" ++ b

/-- A path `f` is returned by `glob.glob(os.path.join(protoPath, "*.proto"))`
iff it lies directly in `protoPath` and its basename matches `*.proto`:
the basename ends in `.proto`, contains no separator, and (per the glob
module's rule for `*`) does not start with a dot. -/
def matchGlobProto (protoPath f : String) : Bool :=
  let pre := if strEndsWith protoPath "/" then protoPath else protoPath ++ "/"
  let name := strDropData f pre.data.length
  strStartsWith f pre && strEndsWith name ".proto" &&
    !strStartsWith name "." && !strContainsChar name '/'

/-- Embedding of `glob.glob(os.path.join(proto_path, "*.proto"))`: the
existing files directly under `proto_path` whose name matches `*.proto`,
in filesystem order. -/
def protoGlob (fs : FileSystem) (protoPath : String) : List String :=
  fs.files.filter (fun f => matchGlobProto protoPath f)

/-- Errors the command can raise: `FileExistsError` out of `os.makedirs`
(when the target exists as a non-directory) and `CalledProcessError` out of
`subprocess.check_call` (recording the failing command line). -/
inductive BuildError where
  | fileExists (path : String)
  | calledProcessError (cmd : List String)
deriving DecidableEq, Repr

/-- One observable effect of the command itself: the `os.makedirs` call on
the output directory, or one spawned compiler subprocess with its full
argument list. -/
inductive FsEvent where
  | makedirs (dir : String)
  | call (cmd : List String)
deriving DecidableEq, Repr

/-- Adding the directory `d` to the filesystem (the effect of a successful
`os.makedirs(d, exist_ok=True)`; intermediate parents are not tracked since
no path in the script depends on them). -/
def mkdirEffect (fs : FileSystem) (d : String) : FileSystem :=
  { fs with dirs := if fs.dirs.contains d then fs.dirs else d :: fs.dirs }

/-- Embedding of `os.makedirs(d, exist_ok=True)`: raises `FileExistsError`
when `d` exists as a regular file; otherwise succeeds, whether or not the
directory already exists. -/
def makedirsExistOk (fs : FileSystem) (d : String) : Except BuildError FileSystem :=
  if fs.files.contains d then Except.error (BuildError.fileExists d)
  else Except.ok (mkdirEffect fs d)

/-- Lines 60-61 of the script: a listed proto file that does not exist is
replaced by `os.path.join(proto_path, proto_file)`; an existing one is kept
unchanged.  No existence check is made on the joined path. -/
def resolveProtoFile (fs : FileSystem) (protoPath f : String) : String :=
  if pathExists fs f then f else osPathJoin protoPath f

/-- Lines 62-71 of the script: the argument list handed to
`subprocess.check_call` for one proto file. -/
def buildCmd (env : Env) (protoPath outputDir protoFile : String) : List String :=
  [env.sysExecutable, "-m", "grpc_tools.protoc", "-I", protoPath,
   "--python_out=" ++ outputDir, "--mypy_out=" ++ outputDir, protoFile]

/-- The `for proto_file in proto_files` loop of `generate_proto`: resolve
each file, build its command, run it; a non-zero exit raises
`CalledProcessError` at once, so later files are never reached. -/
def protocLoop (env : Env) (exec : List String → Bool) (fs : FileSystem)
    (protoPath outputDir : String) : List String → List FsEvent × Option BuildError
  | [] => ([], none)
  | f :: rest =>
    let cmd := buildCmd env protoPath outputDir (resolveProtoFile fs protoPath f)
    if exec cmd then
      let r := protocLoop env exec fs protoPath outputDir rest
      (FsEvent.call cmd :: r.1, r.2)
    else ([FsEvent.call cmd], some (BuildError.calledProcessError cmd))

/-- Run of `generate_proto`: final filesystem state, effect trace, error. -/
structure ProcResult where
  fs : FileSystem
  trace : List FsEvent
  err : Option BuildError
deriving DecidableEq, Repr

/-- The command line of a subprocess event, if the event is one. -/
def extractCall : FsEvent → Option (List String)
  | FsEvent.call c => some c
  | FsEvent.makedirs _ => none

/-- The compiler command lines actually spawned during a run, in order. -/
def ProcResult.calls (r : ProcResult) : List (List String) :=
  r.trace.filterMap extractCall

/-- Embedding of `BuildProto.generate_proto(proto_path, output_dir,
proto_files=None)`: when `proto_files` is `None` the `*.proto` glob of
`proto_path` is used; then `os.makedirs(output_dir, exist_ok=True)`; then
one compiler subprocess per file, stopping at the first failure. -/
def generate_proto (env : Env) (exec : List String → Bool) (fs : FileSystem)
    (protoPath outputDir : String) (protoFiles : Option (List String)) :
    ProcResult :=
  let files := match protoFiles with
    | none => protoGlob fs protoPath
    | some l => l
  match makedirsExistOk fs outputDir with
  | Except.error e => { fs := fs, trace := [FsEvent.makedirs outputDir], err := some e }
  | Except.ok fs1 =>
    let r := protocLoop env exec fs1 protoPath outputDir files
    { fs := fs1, trace := FsEvent.makedirs outputDir :: r.1, err := r.2 }

/-- First proto directory used by `BuildProto.run`. -/
def irProtoPath : String := "../../../../interactive_engine/executor/ir/proto/"

/-- Second proto directory used by `BuildProto.run`. -/
def errProtoPath : String := "../../../../proto/error"

/-- The output directory both `generate_proto` calls of `run` use. -/
def generatedDir : String := "./gs_interactive/client/generated/"

/-- Embedding of `BuildProto.run`: two `generate_proto` calls, the second
reached only if the first returns normally. -/
def run (env : Env) (exec : List String → Bool) (fs : FileSystem) : ProcResult :=
  let r1 := generate_proto env exec fs irProtoPath generatedDir none
  match r1.err with
  | some e => { fs := r1.fs, trace := r1.trace, err := some e }
  | none =>
    let r2 := generate_proto env exec r1.fs errProtoPath generatedDir
      (some ["interactive.proto"])
    { fs := r2.fs, trace := r1.trace ++ r2.trace, err := r2.err }

/-- An argument-list element that is a compiler output option: it starts
with `--` and its part before the first `=` ends in `_out`. -/
def takeUntilEq : List Char → List Char
  | [] => []
  | c :: cs => if c = '=' then [] else c :: takeUntilEq cs

/-- The part of an argument after its first `=` (the output directory of an
output option). -/
def dropThroughEq : List Char → List Char
  | [] => []
  | c :: cs => if c = '=' then cs else dropThroughEq cs

def isOutputOption (s : String) : Bool :=
  strStartsWith s "--" && strEndsWith (String.mk (takeUntilEq s.data)) "_out"

def outputTarget (s : String) : String := String.mk (dropThroughEq s.data)

/-! Basic lemmas about the string helpers. -/

theorem strStartsWith_head (s p : String) (c : Char) (cs : List Char)
    (hp : p.data = c :: cs) (h : strStartsWith s p = true) :
    s.data.head? = some c := by
  obtain ⟨t, ht⟩ := List.isPrefixOf_iff_prefix.mp h
  rw [hp] at ht
  rw [← ht]
  rfl

theorem isOutputOption_false_of_head (s : String) (c : Char) (hc : ¬ c = '-')
    (h : s.data.head? = some c) : isOutputOption s = false := by
  cases hds : strStartsWith s "--" with
  | false => simp [isOutputOption, hds]
  | true =>
    have hh := strStartsWith_head s "--" '-' ['-'] rfl hds
    rw [h] at hh
    exact absurd (Option.some.inj hh) hc

theorem isOutputOption_python_out (out : String) :
    isOutputOption ("--python_out=" ++ out) = true := rfl

theorem isOutputOption_mypy_out (out : String) :
    isOutputOption ("--mypy_out=" ++ out) = true := rfl

theorem outputTarget_python_out (out : String) :
    outputTarget ("--python_out=" ++ out) = out := rfl

theorem outputTarget_mypy_out (out : String) :
    outputTarget ("--mypy_out=" ++ out) = out := rfl

/-! Lemmas about the glob, the resolver and the loop. -/

theorem mem_protoGlob (fs : FileSystem) (p f : String) :
    f ∈ protoGlob fs p ↔ f ∈ fs.files ∧ matchGlobProto p f = true := by
  simp [protoGlob, List.mem_filter]

theorem protoGlob_mem_head (fs : FileSystem) (p f : String) (c : Char) (cs : List Char)
    (hp : p.data = c :: cs) (hf : f ∈ protoGlob fs p) : f.data.head? = some c := by
  obtain ⟨-, hmatch⟩ := (mem_protoGlob fs p f).mp hf
  unfold matchGlobProto at hmatch
  simp only [Bool.and_eq_true] at hmatch
  obtain ⟨⟨⟨hpre, -⟩, -⟩, -⟩ := hmatch
  cases hsl : strEndsWith p "/" with
  | true =>
    rw [hsl] at hpre
    simp only [if_pos rfl] at hpre
    exact strStartsWith_head f p c cs hp hpre
  | false =>
    rw [hsl] at hpre
    simp only [Bool.false_eq_true, if_false] at hpre
    refine strStartsWith_head f (p ++ "/") c (cs ++ ['/']) ?_ hpre
    rw [String.data_append, hp]
    rfl

theorem resolve_of_mem_files (fs2 : FileSystem) (p f : String)
    (hf : f ∈ fs2.files) : resolveProtoFile fs2 p f = f := by
  have hc : fs2.files.contains f = true := List.elem_iff.mpr hf
  have hpe : pathExists fs2 f = true := by
    unfold pathExists
    rw [hc, Bool.true_or]
  simp [resolveProtoFile, hpe]

theorem mkdirEffect_files (fs : FileSystem) (d : String) :
    (mkdirEffect fs d).files = fs.files := rfl

theorem protocLoop_success (env : Env) (exec : List String → Bool) (fs : FileSystem)
    (p out : String) :
    ∀ l : List String,
      (∀ f ∈ l, exec (buildCmd env p out (resolveProtoFile fs p f)) = true) →
      protocLoop env exec fs p out l
        = (l.map (fun f => FsEvent.call (buildCmd env p out (resolveProtoFile fs p f))), none)
  | [], _ => rfl
  | f :: rest, h => by
    have hf := h f (List.mem_cons_self f rest)
    have ih := protocLoop_success env exec fs p out rest
      (fun g hg => h g (List.mem_cons_of_mem f hg))
    simp [protocLoop, hf, ih]

theorem protocLoop_fail (env : Env) (exec : List String → Bool) (fs : FileSystem)
    (p out f : String) (l2 : List String) :
    ∀ l1 : List String,
      (∀ g ∈ l1, exec (buildCmd env p out (resolveProtoFile fs p g)) = true) →
      exec (buildCmd env p out (resolveProtoFile fs p f)) = false →
      protocLoop env exec fs p out (l1 ++ f :: l2)
        = (l1.map (fun g => FsEvent.call (buildCmd env p out (resolveProtoFile fs p g)))
             ++ [FsEvent.call (buildCmd env p out (resolveProtoFile fs p f))],
           some (BuildError.calledProcessError
             (buildCmd env p out (resolveProtoFile fs p f))))
  | [], _, hf => by simp [protocLoop, hf]
  | g :: rest, h1, hf => by
    have hg := h1 g (List.mem_cons_self g rest)
    have ih := protocLoop_fail env exec fs p out f l2 rest
      (fun x hx => h1 x (List.mem_cons_of_mem g hx)) hf
    simp [protocLoop, hg, ih]

theorem protocLoop_event_shape (env : Env) (exec : List String → Bool) (fs : FileSystem)
    (p out : String) :
    ∀ (l : List String) (e : FsEvent), e ∈ (protocLoop env exec fs p out l).1 →
      ∃ f ∈ l, e = FsEvent.call (buildCmd env p out (resolveProtoFile fs p f))
  | [], e, he => absurd he (List.not_mem_nil e)
  | f :: rest, e, he => by
    by_cases hexec : exec (buildCmd env p out (resolveProtoFile fs p f)) = true
    · rw [show protocLoop env exec fs p out (f :: rest)
          = (FsEvent.call (buildCmd env p out (resolveProtoFile fs p f))
              :: (protocLoop env exec fs p out rest).1,
             (protocLoop env exec fs p out rest).2) by simp [protocLoop, hexec]] at he
      rcases List.mem_cons.mp he with hcase | hcase
      · exact ⟨f, List.mem_cons_self f rest, hcase⟩
      · obtain ⟨g, hg, hge⟩ := protocLoop_event_shape env exec fs p out rest e hcase
        exact ⟨g, List.mem_cons_of_mem f hg, hge⟩
    · rw [Bool.not_eq_true] at hexec
      rw [show protocLoop env exec fs p out (f :: rest)
          = ([FsEvent.call (buildCmd env p out (resolveProtoFile fs p f))],
             some (BuildError.calledProcessError
               (buildCmd env p out (resolveProtoFile fs p f))))
          by simp [protocLoop, hexec]] at he
      rcases List.mem_cons.mp he with hcase | hcase
      · exact ⟨f, List.mem_cons_self f rest, hcase⟩
      · exact absurd hcase (List.not_mem_nil e)

theorem protocLoop_err_shape (env : Env) (exec : List String → Bool) (fs : FileSystem)
    (p out : String) :
    ∀ (l : List String) (e : BuildError), (protocLoop env exec fs p out l).2 = some e →
      ∃ c, e = BuildError.calledProcessError c
  | [], e, he => by simp [protocLoop] at he
  | f :: rest, e, he => by
    by_cases hexec : exec (buildCmd env p out (resolveProtoFile fs p f)) = true
    · simp only [protocLoop, hexec, if_true] at he
      exact protocLoop_err_shape env exec fs p out rest e he
    · rw [Bool.not_eq_true] at hexec
      simp only [protocLoop, hexec, Bool.false_eq_true, if_false, Option.some.injEq] at he
      exact ⟨buildCmd env p out (resolveProtoFile fs p f), he.symm⟩

theorem protocLoop_congr (env : Env) (exec : List String → Bool)
    (fsA fsB : FileSystem) (p out : String) :
    ∀ l : List String,
      (∀ f ∈ l, resolveProtoFile fsA p f = resolveProtoFile fsB p f) →
      protocLoop env exec fsA p out l = protocLoop env exec fsB p out l
  | [], _ => rfl
  | f :: rest, h => by
    have hf := h f (List.mem_cons_self f rest)
    have ih := protocLoop_congr env exec fsA fsB p out rest
      (fun g hg => h g (List.mem_cons_of_mem f hg))
    simp [protocLoop, hf, ih]

theorem filterMap_extractCall_map (l : List (List String)) :
    (l.map FsEvent.call).filterMap extractCall = l := by
  induction l with
  | nil => rfl
  | cons a t ih => simp [extractCall, ih]

theorem filterMap_extractCall_map_call {α : Type} (g : α → List String) (l : List α) :
    (l.map (fun f => FsEvent.call (g f))).filterMap extractCall = l.map g := by
  induction l with
  | nil => rfl
  | cons a t ih => simp [extractCall, ih]

/-- The directory of a `makedirs` event, if the event is one. -/
def extractMkdir : FsEvent → Option String
  | FsEvent.makedirs d => some d
  | FsEvent.call _ => none

theorem filterMap_extractMkdir_map_call {α : Type} (g : α → List String) (l : List α) :
    (l.map (fun f => FsEvent.call (g f))).filterMap extractMkdir = [] := by
  induction l with
  | nil => rfl
  | cons a t ih => simp [extractMkdir, ih]

/-! Lemmas unfolding `generate_proto` in its two `makedirs` cases. -/

theorem generate_proto_eq_err (env : Env) (exec : List String → Bool)
    (fs : FileSystem) (p out : String) (pfs : Option (List String))
    (hm : fs.files.contains out = true) :
    generate_proto env exec fs p out pfs
      = { fs := fs, trace := [FsEvent.makedirs out],
          err := some (BuildError.fileExists out) } := by
  have hmem : out ∈ fs.files := List.elem_iff.mp hm
  simp [generate_proto, makedirsExistOk, hmem]

theorem generate_proto_eq_ok (env : Env) (exec : List String → Bool)
    (fs : FileSystem) (p out : String) (pfs : Option (List String))
    (hm : fs.files.contains out = false) :
    generate_proto env exec fs p out pfs
      = { fs := mkdirEffect fs out,
          trace := FsEvent.makedirs out ::
            (protocLoop env exec (mkdirEffect fs out) p out
              (match pfs with | none => protoGlob fs p | some l => l)).1,
          err := (protocLoop env exec (mkdirEffect fs out) p out
            (match pfs with | none => protoGlob fs p | some l => l)).2 } := by
  have hmem : out ∉ fs.files := by
    intro h
    have := List.elem_iff.mpr h
    rw [show fs.files.elem out = fs.files.contains out from rfl, hm] at this
    exact Bool.true_eq_false.mp this.symm
  simp [generate_proto, makedirsExistOk, hmem]

theorem calls_cons_makedirs (fs : FileSystem) (d : String) (tr : List FsEvent)
    (e : Option BuildError) :
    ProcResult.calls { fs := fs, trace := FsEvent.makedirs d :: tr, err := e }
      = tr.filterMap extractCall := by
  simp [ProcResult.calls, extractCall]

theorem generate_proto_calls_shape (env : Env) (exec : List String → Bool)
    (fs : FileSystem) (p out : String) (pfs : Option (List String)) (c : List String)
    (hc : c ∈ (generate_proto env exec fs p out pfs).calls) :
    ∃ pf, c = buildCmd env p out pf := by
  by_cases hm : fs.files.contains out = true
  · rw [generate_proto_eq_err env exec fs p out pfs hm] at hc
    simp [ProcResult.calls, extractCall] at hc
  · rw [Bool.not_eq_true] at hm
    rw [generate_proto_eq_ok env exec fs p out pfs hm, calls_cons_makedirs] at hc
    obtain ⟨e, he, hee⟩ := List.mem_filterMap.mp hc
    obtain ⟨f, -, rfl⟩ := protocLoop_event_shape env exec (mkdirEffect fs out) p out _ e he
    refine ⟨resolveProtoFile (mkdirEffect fs out) p f, ?_⟩
    simpa [extractCall] using hee.symm

theorem generate_proto_eq_ok_none (env : Env) (exec : List String → Bool)
    (fs : FileSystem) (p out : String) (hm : fs.files.contains out = false) :
    generate_proto env exec fs p out none
      = { fs := mkdirEffect fs out,
          trace := FsEvent.makedirs out ::
            (protocLoop env exec (mkdirEffect fs out) p out (protoGlob fs p)).1,
          err := (protocLoop env exec (mkdirEffect fs out) p out (protoGlob fs p)).2 } :=
  generate_proto_eq_ok env exec fs p out none hm

theorem generate_proto_eq_ok_some (env : Env) (exec : List String → Bool)
    (fs : FileSystem) (p out : String) (l : List String)
    (hm : fs.files.contains out = false) :
    generate_proto env exec fs p out (some l)
      = { fs := mkdirEffect fs out,
          trace := FsEvent.makedirs out ::
            (protocLoop env exec (mkdirEffect fs out) p out l).1,
          err := (protocLoop env exec (mkdirEffect fs out) p out l).2 } :=
  generate_proto_eq_ok env exec fs p out (some l) hm

/-- The whole of `run` in the all-success case: two `makedirs` events on the
shared output directory, one compiler call per globbed file of the first
directory, then one call for `interactive.proto`. -/
theorem run_eq_success (env : Env) (exec : List String → Bool) (fs : FileSystem)
    (hm : fs.files.contains generatedDir = false)
    (hexec : ∀ c, exec c = true) :
    run env exec fs
      = { fs := mkdirEffect (mkdirEffect fs generatedDir) generatedDir,
          trace :=
            (FsEvent.makedirs generatedDir ::
              (protoGlob fs irProtoPath).map (fun f =>
                FsEvent.call (buildCmd env irProtoPath generatedDir
                  (resolveProtoFile (mkdirEffect fs generatedDir) irProtoPath f))))
            ++ [FsEvent.makedirs generatedDir,
                FsEvent.call (buildCmd env errProtoPath generatedDir
                  (resolveProtoFile (mkdirEffect (mkdirEffect fs generatedDir) generatedDir)
                    errProtoPath "interactive.proto"))],
          err := none } := by
  have hm2 : (mkdirEffect fs generatedDir).files.contains generatedDir = false := hm
  have hl1 := protocLoop_success env exec (mkdirEffect fs generatedDir) irProtoPath
    generatedDir (protoGlob fs irProtoPath) (fun f _ => hexec _)
  have hl2 := protocLoop_success env exec
    (mkdirEffect (mkdirEffect fs generatedDir) generatedDir) errProtoPath generatedDir
    ["interactive.proto"] (fun f _ => hexec _)
  simp only [run, generate_proto_eq_ok_none env exec fs irProtoPath generatedDir hm, hl1,
    generate_proto_eq_ok_some env exec (mkdirEffect fs generatedDir) errProtoPath
      generatedDir ["interactive.proto"] hm2, hl2, List.map_cons, List.map_nil]

theorem protocLoop_calls_shape (env : Env) (exec : List String → Bool) (fs : FileSystem)
    (p out : String) (l : List String) (c : List String)
    (hc : c ∈ (protocLoop env exec fs p out l).1.filterMap extractCall) :
    ∃ f ∈ l, c = buildCmd env p out (resolveProtoFile fs p f) := by
  obtain ⟨e, he, hee⟩ := List.mem_filterMap.mp hc
  obtain ⟨f, hf, rfl⟩ := protocLoop_event_shape env exec fs p out l e he
  exact ⟨f, hf, by simpa [extractCall] using hee.symm⟩

theorem run_eq_err1 (env : Env) (exec : List String → Bool) (fs : FileSystem)
    (e : BuildError)
    (h : (generate_proto env exec fs irProtoPath generatedDir none).err = some e) :
    run env exec fs
      = { fs := (generate_proto env exec fs irProtoPath generatedDir none).fs,
          trace := (generate_proto env exec fs irProtoPath generatedDir none).trace,
          err := some e } := by
  simp only [run, h]

theorem run_eq_ok1 (env : Env) (exec : List String → Bool) (fs : FileSystem)
    (h : (generate_proto env exec fs irProtoPath generatedDir none).err = none) :
    run env exec fs
      = { fs := (generate_proto env exec
            (generate_proto env exec fs irProtoPath generatedDir none).fs
            errProtoPath generatedDir (some ["interactive.proto"])).fs,
          trace := (generate_proto env exec fs irProtoPath generatedDir none).trace
            ++ (generate_proto env exec
                  (generate_proto env exec fs irProtoPath generatedDir none).fs
                  errProtoPath generatedDir (some ["interactive.proto"])).trace,
          err := (generate_proto env exec
            (generate_proto env exec fs irProtoPath generatedDir none).fs
            errProtoPath generatedDir (some ["interactive.proto"])).err } := by
  simp only [run, h]

/-- Every command `run` spawns is either the command for a globbed file of
the first proto directory, or the command for `interactive.proto` in the
second directory (resolved directly or joined onto that directory). -/
theorem run_calls_shape (env : Env) (exec : List String → Bool) (fs : FileSystem)
    (c : List String) (hc : c ∈ (run env exec fs).calls) :
    (∃ f ∈ protoGlob fs irProtoPath, c = buildCmd env irProtoPath generatedDir f)
    ∨ ∃ pf, c = buildCmd env errProtoPath generatedDir pf
        ∧ (pf = "interactive.proto" ∨ pf = osPathJoin errProtoPath "interactive.proto") := by
  by_cases hm : fs.files.contains generatedDir = true
  · have h1 := generate_proto_eq_err env exec fs irProtoPath generatedDir none hm
    have herr : (generate_proto env exec fs irProtoPath generatedDir none).err
        = some (BuildError.fileExists generatedDir) := by rw [h1]
    rw [run_eq_err1 env exec fs _ herr, h1] at hc
    simp [ProcResult.calls, extractCall] at hc
  · rw [Bool.not_eq_true] at hm
    have h1 := generate_proto_eq_ok_none env exec fs irProtoPath generatedDir hm
    have hresolve : ∀ f ∈ protoGlob fs irProtoPath,
        resolveProtoFile (mkdirEffect fs generatedDir) irProtoPath f = f := by
      intro f hf
      exact resolve_of_mem_files (mkdirEffect fs generatedDir) irProtoPath f
        ((mem_protoGlob fs irProtoPath f).mp hf).1
    cases herr2 : (protocLoop env exec (mkdirEffect fs generatedDir) irProtoPath
        generatedDir (protoGlob fs irProtoPath)).2 with
    | some e =>
      have herr : (generate_proto env exec fs irProtoPath generatedDir none).err = some e := by
        rw [h1]; exact herr2
      rw [run_eq_err1 env exec fs e herr, h1, calls_cons_makedirs] at hc
      obtain ⟨f, hf, hcf⟩ := protocLoop_calls_shape env exec (mkdirEffect fs generatedDir)
        irProtoPath generatedDir (protoGlob fs irProtoPath) c hc
      exact Or.inl ⟨f, hf, by rw [hcf, hresolve f hf]⟩
    | none =>
      have herr : (generate_proto env exec fs irProtoPath generatedDir none).err = none := by
        rw [h1]; exact herr2
      have hm2 : (mkdirEffect fs generatedDir).files.contains generatedDir = false := hm
      have h2 := generate_proto_eq_ok_some env exec (mkdirEffect fs generatedDir)
        errProtoPath generatedDir ["interactive.proto"] hm2
      rw [run_eq_ok1 env exec fs herr, h1, h2] at hc
      simp only [ProcResult.calls, List.filterMap_append, List.filterMap_cons,
        extractCall] at hc
      rcases List.mem_append.mp hc with hin | hin
      · obtain ⟨f, hf, hcf⟩ := protocLoop_calls_shape env exec (mkdirEffect fs generatedDir)
          irProtoPath generatedDir (protoGlob fs irProtoPath) c hin
        exact Or.inl ⟨f, hf, by rw [hcf, hresolve f hf]⟩
      · obtain ⟨f, hf, hcf⟩ := protocLoop_calls_shape env exec
          (mkdirEffect (mkdirEffect fs generatedDir) generatedDir)
          errProtoPath generatedDir ["interactive.proto"] c hin
        have hf' : f = "interactive.proto" := by
          rcases List.mem_singleton.mp hf with h
          exact h
        subst hf'
        refine Or.inr ⟨resolveProtoFile (mkdirEffect (mkdirEffect fs generatedDir)
          generatedDir) errProtoPath "interactive.proto", hcf, ?_⟩
        unfold resolveProtoFile
        by_cases hpe : pathExists (mkdirEffect (mkdirEffect fs generatedDir) generatedDir)
            "interactive.proto" = true
        · simp [hpe]
        · rw [Bool.not_eq_true] at hpe
          simp [hpe]

/-- Every `makedirs` event `run` performs targets the shared output
directory of the two `generate_proto` calls. -/
theorem run_mkdir_events (env : Env) (exec : List String → Bool) (fs : FileSystem)
    (d : String) (hd : FsEvent.makedirs d ∈ (run env exec fs).trace) : d = generatedDir := by
  by_cases hm : fs.files.contains generatedDir = true
  · have h1 := generate_proto_eq_err env exec fs irProtoPath generatedDir none hm
    have herr : (generate_proto env exec fs irProtoPath generatedDir none).err
        = some (BuildError.fileExists generatedDir) := by rw [h1]
    rw [run_eq_err1 env exec fs _ herr, h1] at hd
    simp at hd
    exact hd.symm ▸ rfl
  · rw [Bool.not_eq_true] at hm
    have h1 := generate_proto_eq_ok_none env exec fs irProtoPath generatedDir hm
    have hnotloop : ∀ (fsx : FileSystem) (px : String) (lx : List String),
        FsEvent.makedirs d ∈ (protocLoop env exec fsx px generatedDir lx).1 → d = generatedDir := by
      intro fsx px lx hmem
      obtain ⟨f, -, hfe⟩ := protocLoop_event_shape env exec fsx px generatedDir lx _ hmem
      exact absurd hfe (by intro h; cases h)
    cases herr2 : (protocLoop env exec (mkdirEffect fs generatedDir) irProtoPath
        generatedDir (protoGlob fs irProtoPath)).2 with
    | some e =>
      have herr : (generate_proto env exec fs irProtoPath generatedDir none).err = some e := by
        rw [h1]; exact herr2
      rw [run_eq_err1 env exec fs e herr, h1] at hd
      rcases List.mem_cons.mp hd with hcase | hcase
      · cases hcase; rfl
      · exact hnotloop _ _ _ hcase
    | none =>
      have herr : (generate_proto env exec fs irProtoPath generatedDir none).err = none := by
        rw [h1]; exact herr2
      have hm2 : (mkdirEffect fs generatedDir).files.contains generatedDir = false := hm
      have h2 := generate_proto_eq_ok_some env exec (mkdirEffect fs generatedDir)
        errProtoPath generatedDir ["interactive.proto"] hm2
      rw [run_eq_ok1 env exec fs herr, h1, h2] at hd
      rcases List.mem_append.mp hd with hin | hin
      · rcases List.mem_cons.mp hin with hcase | hcase
        · cases hcase; rfl
        · exact hnotloop _ _ _ hcase
      · rcases List.mem_cons.mp hin with hcase | hcase
        · cases hcase; rfl
        · exact hnotloop _ _ _ hcase

theorem irProtoPath_data :
    irProtoPath.data = '.' :: (strDropData irProtoPath 1).data := rfl

/-- C1: the claim states every constructed compiler command line includes a
gRPC stub output option besides the Python output option.  The code builds
`--python_out` and `--mypy_out` options only, so the claim fails: in this
run the single constructed command contains no argument starting with
`--grpc_python_out`. -/
theorem claim_C1_counterexample :
    ¬ ∀ c ∈ (generate_proto ⟨"python3"⟩ (fun _ => true)
        ⟨["p/a.proto"], []⟩ "p" "o" none).calls,
      ∃ s ∈ c, strStartsWith s "--grpc_python_out" = true := by decide

/-- C1 (amended): every compiler command line constructed by
`generate_proto` requests Python stubs and mypy type stubs, both directed
at the output directory — it is exactly the interpreter, `-m
grpc_tools.protoc`, `-I proto_path`, `--python_out=output_dir`,
`--mypy_out=output_dir` and the proto file, so in particular no gRPC stub
output option is included. -/
theorem claim_C1_amended (env : Env) (exec : List String → Bool)
    (fs : FileSystem) (p out : String) (pfs : Option (List String)) (c : List String)
    (hc : c ∈ (generate_proto env exec fs p out pfs).calls) :
    ("--python_out=" ++ out) ∈ c ∧ ("--mypy_out=" ++ out) ∈ c ∧
      ∃ pf, c = [env.sysExecutable, "-m", "grpc_tools.protoc", "-I", p,
        "--python_out=" ++ out, "--mypy_out=" ++ out, pf] := by
  obtain ⟨pf, hcmd⟩ := generate_proto_calls_shape env exec fs p out pfs c hc
  subst hcmd
  refine ⟨?_, ?_, pf, rfl⟩
  · simp [buildCmd]
  · simp [buildCmd]

/-- C1 witness: the amended theorem applied to a run over a directory
holding one proto file. -/
theorem claim_C1_witness :
    ("--python_out=" ++ "o") ∈ (["python3", "-m", "grpc_tools.protoc", "-I", "p",
        "--python_out=o", "--mypy_out=o", "p/a.proto"] : List String)
    ∧ ("--mypy_out=" ++ "o") ∈ (["python3", "-m", "grpc_tools.protoc", "-I", "p",
        "--python_out=o", "--mypy_out=o", "p/a.proto"] : List String)
    ∧ ∃ pf, (["python3", "-m", "grpc_tools.protoc", "-I", "p",
        "--python_out=o", "--mypy_out=o", "p/a.proto"] : List String)
          = ["python3", "-m", "grpc_tools.protoc", "-I", "p",
             "--python_out=" ++ "o", "--mypy_out=" ++ "o", pf] :=
  claim_C1_amended ⟨"python3"⟩ (fun _ => true) ⟨["p/a.proto"], []⟩ "p" "o" none
    ["python3", "-m", "grpc_tools.protoc", "-I", "p",
     "--python_out=o", "--mypy_out=o", "p/a.proto"] (by decide)

/-- C2: the claim states `run` spawns exactly two compiler subprocesses
regardless of how many `.proto` files the first proto directory holds.  With
two `.proto` files there and an always-succeeding compiler, `run` spawns
three subprocesses, not two. -/
theorem claim_C2_counterexample :
    (run ⟨"py"⟩ (fun _ => true)
      ⟨["../../../../interactive_engine/executor/ir/proto/a.proto",
        "../../../../interactive_engine/executor/ir/proto/b.proto"], []⟩).calls.length = 3
    ∧ ¬ (run ⟨"py"⟩ (fun _ => true)
      ⟨["../../../../interactive_engine/executor/ir/proto/a.proto",
        "../../../../interactive_engine/executor/ir/proto/b.proto"], []⟩).calls.length = 2 := by
  decide

/-- C2 (amended): `run` performs exactly two `generate_proto` invocations —
its trace holds exactly two `makedirs` events, both on the shared output
directory — but the number of compiler subprocesses is not fixed at two:
when every invocation succeeds it is the number of `*.proto` files globbed
from the first proto directory, plus one for `interactive.proto`. -/
theorem claim_C2_amended (env : Env) (exec : List String → Bool) (fs : FileSystem)
    (hm : fs.files.contains generatedDir = false)
    (hexec : ∀ c, exec c = true) :
    (run env exec fs).calls.length = (protoGlob fs irProtoPath).length + 1
    ∧ (run env exec fs).trace.filterMap extractMkdir = [generatedDir, generatedDir] := by
  rw [run_eq_success env exec fs hm hexec]
  constructor
  · simp [ProcResult.calls, List.filterMap_append, List.filterMap_cons,
      filterMap_extractCall_map_call, extractCall]
  · simp [List.filterMap_append, List.filterMap_cons,
      filterMap_extractMkdir_map_call, extractMkdir]

/-- C2 witness: with one proto file present and a succeeding compiler, the
call count is `1 + 1 = 2` and the two `makedirs` events target the shared
output directory. -/
theorem claim_C2_witness :
    (run ⟨"py"⟩ (fun _ => true)
      ⟨["../../../../interactive_engine/executor/ir/proto/a.proto"], []⟩).calls.length
      = (protoGlob ⟨["../../../../interactive_engine/executor/ir/proto/a.proto"], []⟩
          irProtoPath).length + 1
    ∧ (run ⟨"py"⟩ (fun _ => true)
        ⟨["../../../../interactive_engine/executor/ir/proto/a.proto"], []⟩).trace.filterMap
          extractMkdir = [generatedDir, generatedDir] :=
  claim_C2_amended ⟨"py"⟩ (fun _ => true)
    ⟨["../../../../interactive_engine/executor/ir/proto/a.proto"], []⟩
    (by decide) (fun _ => rfl)

/-- C3: every compiler invocation performed by `BuildProto.run` places its
generated stub artifacts in `./gs_interactive/client/generated/`: each
spawned command carries `--python_out` and `--mypy_out` options naming that
directory, every output option of every command targets that directory,
and both `generate_proto` calls pass it as `output_dir` (every `makedirs`
event targets it).  The executable is assumed not to be spelled like an
output option. -/
theorem claim_C3_single_output_dir (env : Env) (exec : List String → Bool)
    (fs : FileSystem) (c : List String)
    (hexe : isOutputOption env.sysExecutable = false)
    (hc : c ∈ (run env exec fs).calls) :
    ("--python_out=" ++ generatedDir) ∈ c ∧ ("--mypy_out=" ++ generatedDir) ∈ c
    ∧ (∀ s ∈ c, isOutputOption s = true → outputTarget s = generatedDir)
    ∧ (∀ d, FsEvent.makedirs d ∈ (run env exec fs).trace → d = generatedDir) := by
  have hopts : ∀ (p pf : String), isOutputOption p = false → isOutputOption pf = false →
      ∀ s ∈ buildCmd env p generatedDir pf, isOutputOption s = true →
        outputTarget s = generatedDir := by
    intro p pf hp hpf s hs hio
    simp only [buildCmd, List.mem_cons, List.mem_singleton] at hs
    rcases hs with rfl | rfl | rfl | rfl | rfl | rfl | rfl | hs
    · rw [hexe] at hio; exact absurd hio (by decide)
    · exact absurd hio (by decide)
    · exact absurd hio (by decide)
    · exact absurd hio (by decide)
    · rw [hp] at hio; exact absurd hio (by decide)
    · exact outputTarget_python_out generatedDir
    · exact outputTarget_mypy_out generatedDir
    · rcases hs with rfl | hs
      · rw [hpf] at hio; exact absurd hio (by decide)
      · exact absurd hs (List.not_mem_nil s)
  rcases run_calls_shape env exec fs c hc with ⟨f, hf, rfl⟩ | ⟨pf, rfl, hpf⟩
  · have hhead := protoGlob_mem_head fs irProtoPath f '.' _ irProtoPath_data hf
    have hfopt : isOutputOption f = false :=
      isOutputOption_false_of_head f '.' (by decide) hhead
    refine ⟨?_, ?_, hopts irProtoPath f (by decide) hfopt,
      fun d hd => run_mkdir_events env exec fs d hd⟩
    · simp [buildCmd]
    · simp [buildCmd]
  · have hfopt : isOutputOption pf = false := by
      rcases hpf with rfl | rfl
      · decide
      · decide
    refine ⟨?_, ?_, hopts errProtoPath pf (by decide) hfopt,
      fun d hd => run_mkdir_events env exec fs d hd⟩
    · simp [buildCmd]
    · simp [buildCmd]

/-- C3 witness: the theorem applied to a run over a filesystem holding one
proto file in the first proto directory. -/
theorem claim_C3_witness :
    ("--python_out=" ++ generatedDir) ∈ (["py", "-m", "grpc_tools.protoc", "-I",
        irProtoPath, "--python_out=" ++ generatedDir, "--mypy_out=" ++ generatedDir,
        "../../../../interactive_engine/executor/ir/proto/a.proto"] : List String)
    ∧ ("--mypy_out=" ++ generatedDir) ∈ (["py", "-m", "grpc_tools.protoc", "-I",
        irProtoPath, "--python_out=" ++ generatedDir, "--mypy_out=" ++ generatedDir,
        "../../../../interactive_engine/executor/ir/proto/a.proto"] : List String)
    ∧ (∀ s ∈ (["py", "-m", "grpc_tools.protoc", "-I",
        irProtoPath, "--python_out=" ++ generatedDir, "--mypy_out=" ++ generatedDir,
        "../../../../interactive_engine/executor/ir/proto/a.proto"] : List String),
          isOutputOption s = true → outputTarget s = generatedDir)
    ∧ (∀ d, FsEvent.makedirs d ∈ (run ⟨"py"⟩ (fun _ => true)
        ⟨["../../../../interactive_engine/executor/ir/proto/a.proto"], []⟩).trace →
          d = generatedDir) :=
  claim_C3_single_output_dir ⟨"py"⟩ (fun _ => true)
    ⟨["../../../../interactive_engine/executor/ir/proto/a.proto"], []⟩
    ["py", "-m", "grpc_tools.protoc", "-I", irProtoPath,
     "--python_out=" ++ generatedDir, "--mypy_out=" ++ generatedDir,
     "../../../../interactive_engine/executor/ir/proto/a.proto"]
    (by decide) (by decide)

/-- C4: with `proto_files = None`, `generate_proto` compiles exactly the
existing files directly under `proto_path` whose name matches `*.proto` —
one compiler subprocess per such file, in filesystem order, and no other
file — assuming the output directory is creatable and the compiler exits
cleanly. -/
theorem claim_C4_glob_when_none (env : Env) (exec : List String → Bool) (fs : FileSystem)
    (p out : String)
    (hm : fs.files.contains out = false)
    (hexec : ∀ c, exec c = true) :
    (generate_proto env exec fs p out none).calls
      = (fs.files.filter (fun f => matchGlobProto p f)).map (fun f => buildCmd env p out f) := by
  have hl := protocLoop_success env exec (mkdirEffect fs out) p out (protoGlob fs p)
    (fun g _ => hexec _)
  rw [generate_proto_eq_ok_none env exec fs p out hm, calls_cons_makedirs, hl]
  have hmap : ∀ f ∈ protoGlob fs p,
      buildCmd env p out (resolveProtoFile (mkdirEffect fs out) p f) = buildCmd env p out f := by
    intro f hf
    rw [resolve_of_mem_files (mkdirEffect fs out) p f ((mem_protoGlob fs p f).mp hf).1]
  calc ((protoGlob fs p).map (fun f =>
          FsEvent.call (buildCmd env p out (resolveProtoFile (mkdirEffect fs out) p f)))
        , (none : Option BuildError)).1.filterMap extractCall
      = (protoGlob fs p).map (fun f =>
          buildCmd env p out (resolveProtoFile (mkdirEffect fs out) p f)) := by
        exact filterMap_extractCall_map_call _ _
    _ = (protoGlob fs p).map (fun f => buildCmd env p out f) := List.map_congr_left hmap
    _ = (fs.files.filter (fun f => matchGlobProto p f)).map (fun f => buildCmd env p out f) := rfl

/-- C4 witness: a directory with one matching and one non-matching file
compiles exactly the matching one. -/
theorem claim_C4_witness :
    (generate_proto ⟨"py"⟩ (fun _ => true) ⟨["p/a.proto", "p/b.txt"], []⟩
        "p" "o" none).calls
      = ((⟨["p/a.proto", "p/b.txt"], []⟩ : FileSystem).files.filter
          (fun f => matchGlobProto "p" f)).map (fun f => buildCmd ⟨"py"⟩ "p" "o" f) :=
  claim_C4_glob_when_none ⟨"py"⟩ (fun _ => true) ⟨["p/a.proto", "p/b.txt"], []⟩
    "p" "o" (by decide) (fun _ => rfl)

/-- C5: stub generation is deterministic.  The embedding of
`generate_proto` is a pure function of the interpreter, the compiler
behaviour and the filesystem state, and the constructed command sequence
depends on the filesystem only through the `*.proto` glob of `proto_path`
and through whether `output_dir` exists as a regular file: two runs over
filesystems agreeing on those construct identical command sequences and
identical results. -/
theorem claim_C5_deterministic (env : Env) (exec : List String → Bool)
    (fs1 fs2 : FileSystem) (p out : String)
    (hg : protoGlob fs1 p = protoGlob fs2 p)
    (hmk : fs1.files.contains out = fs2.files.contains out) :
    (generate_proto env exec fs1 p out none).calls
      = (generate_proto env exec fs2 p out none).calls
    ∧ (generate_proto env exec fs1 p out none).err
      = (generate_proto env exec fs2 p out none).err := by
  cases hc : fs1.files.contains out with
  | true =>
    have hc2 : fs2.files.contains out = true := by rw [← hmk]; exact hc
    rw [generate_proto_eq_err env exec fs1 p out none hc,
        generate_proto_eq_err env exec fs2 p out none hc2]
    exact ⟨rfl, rfl⟩
  | false =>
    have hc2 : fs2.files.contains out = false := by rw [← hmk]; exact hc
    have hres : ∀ f ∈ protoGlob fs1 p,
        resolveProtoFile (mkdirEffect fs1 out) p f
          = resolveProtoFile (mkdirEffect fs2 out) p f := by
      intro f hf
      have h1 : f ∈ fs1.files := ((mem_protoGlob fs1 p f).mp hf).1
      have h2 : f ∈ fs2.files := ((mem_protoGlob fs2 p f).mp (hg ▸ hf)).1
      rw [resolve_of_mem_files (mkdirEffect fs1 out) p f h1,
          resolve_of_mem_files (mkdirEffect fs2 out) p f h2]
    have hloop := protocLoop_congr env exec (mkdirEffect fs1 out) (mkdirEffect fs2 out)
      p out (protoGlob fs1 p) hres
    rw [generate_proto_eq_ok_none env exec fs1 p out hc,
        generate_proto_eq_ok_none env exec fs2 p out hc2]
    constructor
    · rw [calls_cons_makedirs, calls_cons_makedirs, hloop, hg]
    · show (protocLoop env exec (mkdirEffect fs1 out) p out (protoGlob fs1 p)).2
        = (protocLoop env exec (mkdirEffect fs2 out) p out (protoGlob fs2 p)).2
      rw [hloop, hg]

/-- C5 witness: two filesystems differing in unrelated entries but agreeing
on the glob of `p` and on the absence of a file named `o` produce identical
command sequences and identical errors. -/
theorem claim_C5_witness :
    (generate_proto ⟨"py"⟩ (fun _ => true) ⟨["p/a.proto", "q/z.txt"], []⟩
        "p" "o" none).calls
      = (generate_proto ⟨"py"⟩ (fun _ => true) ⟨["junk.md", "p/a.proto"], ["d"]⟩
          "p" "o" none).calls
    ∧ (generate_proto ⟨"py"⟩ (fun _ => true) ⟨["p/a.proto", "q/z.txt"], []⟩
        "p" "o" none).err
      = (generate_proto ⟨"py"⟩ (fun _ => true) ⟨["junk.md", "p/a.proto"], ["d"]⟩
          "p" "o" none).err :=
  claim_C5_deterministic ⟨"py"⟩ (fun _ => true) ⟨["p/a.proto", "q/z.txt"], []⟩
    ⟨["junk.md", "p/a.proto"], ["d"]⟩ "p" "o" (by decide) (by decide)

/-- C6: the claim states `generate_proto` consults or modifies no filesystem
state other than what is read from `proto_path`.  It fails: `os.makedirs`
creates `output_dir`, a path unrelated to `proto_path`.  Starting from an
empty filesystem with an empty explicit file list (so nothing at all is read
from `proto_path`), the function still creates directory `"o"`. -/
theorem claim_C6_counterexample :
    (generate_proto ⟨"py"⟩ (fun _ => true) ⟨[], []⟩ "p" "o" (some [])).fs
      ≠ (⟨[], []⟩ : FileSystem)
    ∧ (generate_proto ⟨"py"⟩ (fun _ => true) ⟨[], []⟩ "p" "o" (some [])).fs.dirs
      = ["o"] := by
  decide

/-- C6 (amended): besides reading `proto_path` (and checking the existence
of explicitly supplied entries), the only filesystem modification performed
by `generate_proto` itself is creating `output_dir`: the file set is
unchanged and the directory set either is unchanged or gains exactly
`output_dir`. -/
theorem claim_C6_amended (env : Env) (exec : List String → Bool) (fs : FileSystem)
    (p out : String) (pfs : Option (List String)) :
    ((generate_proto env exec fs p out pfs).fs.files = fs.files)
    ∧ ((generate_proto env exec fs p out pfs).fs.dirs = fs.dirs
        ∨ (generate_proto env exec fs p out pfs).fs.dirs = out :: fs.dirs) := by
  by_cases hm : fs.files.contains out = true
  · rw [generate_proto_eq_err env exec fs p out pfs hm]
    exact ⟨rfl, Or.inl rfl⟩
  · rw [Bool.not_eq_true] at hm
    rw [generate_proto_eq_ok env exec fs p out pfs hm]
    refine ⟨rfl, ?_⟩
    unfold mkdirEffect
    cases hd : fs.dirs.contains out with
    | true =>
      left
      simp [hd]
    | false =>
      right
      simp [hd]

/-- C7: when the compiler invocation for one proto file exits non-zero,
`generate_proto` raises `CalledProcessError` at once: the commands spawned
are exactly those for the earlier files plus the failing one — none for any
later file — and whenever the first `generate_proto` call of `run` ends in
an error, `run`'s outcome is exactly that first call's outcome, so the
second call never happens. -/
theorem claim_C7_failure_stops (env : Env) (exec : List String → Bool)
    (fs fs0 : FileSystem) (p out f : String) (l1 l2 : List String) (e0 : BuildError)
    (hm : fs.files.contains out = false)
    (h1 : ∀ g ∈ l1,
      exec (buildCmd env p out (resolveProtoFile (mkdirEffect fs out) p g)) = true)
    (h2 : exec (buildCmd env p out (resolveProtoFile (mkdirEffect fs out) p f)) = false)
    (h3 : (generate_proto env exec fs0 irProtoPath generatedDir none).err = some e0) :
    ((generate_proto env exec fs p out (some (l1 ++ f :: l2))).err
        = some (BuildError.calledProcessError
            (buildCmd env p out (resolveProtoFile (mkdirEffect fs out) p f))))
    ∧ ((generate_proto env exec fs p out (some (l1 ++ f :: l2))).calls
        = l1.map (fun g => buildCmd env p out (resolveProtoFile (mkdirEffect fs out) p g))
          ++ [buildCmd env p out (resolveProtoFile (mkdirEffect fs out) p f)])
    ∧ (run env exec fs0
        = { fs := (generate_proto env exec fs0 irProtoPath generatedDir none).fs,
            trace := (generate_proto env exec fs0 irProtoPath generatedDir none).trace,
            err := some e0 }) := by
  have hl := protocLoop_fail env exec (mkdirEffect fs out) p out f l2 l1 h1 h2
  refine ⟨?_, ?_, run_eq_err1 env exec fs0 e0 h3⟩
  · rw [generate_proto_eq_ok_some env exec fs p out (l1 ++ f :: l2) hm]
    show (protocLoop env exec (mkdirEffect fs out) p out (l1 ++ f :: l2)).2 = _
    rw [hl]
  · rw [generate_proto_eq_ok_some env exec fs p out (l1 ++ f :: l2) hm,
      calls_cons_makedirs, hl]
    show List.filterMap extractCall (_ ++ _) = _
    rw [List.filterMap_append, filterMap_extractCall_map_call]
    simp [extractCall]

/-- C7 witness: a compiler that fails on `p/bad.proto` stops the loop after
the failing command, and a failing first directory makes `run` return the
first call's outcome untouched. -/
theorem claim_C7_witness :
    ((generate_proto ⟨"py"⟩
        (fun c => !(c.contains "p/bad.proto"
          || c.contains "../../../../interactive_engine/executor/ir/proto/x.proto"))
        ⟨["p/good.proto", "p/bad.proto"], []⟩ "p" "o"
        (some (["good.proto"] ++ "bad.proto" :: ["late.proto"]))).err
      = some (BuildError.calledProcessError
          (buildCmd ⟨"py"⟩ "p" "o"
            (resolveProtoFile (mkdirEffect ⟨["p/good.proto", "p/bad.proto"], []⟩ "o")
              "p" "bad.proto"))))
    ∧ ((generate_proto ⟨"py"⟩
        (fun c => !(c.contains "p/bad.proto"
          || c.contains "../../../../interactive_engine/executor/ir/proto/x.proto"))
        ⟨["p/good.proto", "p/bad.proto"], []⟩ "p" "o"
        (some (["good.proto"] ++ "bad.proto" :: ["late.proto"]))).calls
      = ["good.proto"].map (fun g => buildCmd ⟨"py"⟩ "p" "o"
          (resolveProtoFile (mkdirEffect ⟨["p/good.proto", "p/bad.proto"], []⟩ "o") "p" g))
        ++ [buildCmd ⟨"py"⟩ "p" "o"
            (resolveProtoFile (mkdirEffect ⟨["p/good.proto", "p/bad.proto"], []⟩ "o")
              "p" "bad.proto")])
    ∧ (run ⟨"py"⟩
        (fun c => !(c.contains "p/bad.proto"
          || c.contains "../../../../interactive_engine/executor/ir/proto/x.proto"))
        ⟨["../../../../interactive_engine/executor/ir/proto/x.proto"], []⟩
        = { fs := (generate_proto ⟨"py"⟩
              (fun c => !(c.contains "p/bad.proto"
                || c.contains "../../../../interactive_engine/executor/ir/proto/x.proto"))
              ⟨["../../../../interactive_engine/executor/ir/proto/x.proto"], []⟩
              irProtoPath generatedDir none).fs,
            trace := (generate_proto ⟨"py"⟩
              (fun c => !(c.contains "p/bad.proto"
                || c.contains "../../../../interactive_engine/executor/ir/proto/x.proto"))
              ⟨["../../../../interactive_engine/executor/ir/proto/x.proto"], []⟩
              irProtoPath generatedDir none).trace,
            err := some (BuildError.calledProcessError
              (buildCmd ⟨"py"⟩ irProtoPath generatedDir
                "../../../../interactive_engine/executor/ir/proto/x.proto")) }) :=
  claim_C7_failure_stops ⟨"py"⟩
    (fun c => !(c.contains "p/bad.proto"
      || c.contains "../../../../interactive_engine/executor/ir/proto/x.proto"))
    ⟨["p/good.proto", "p/bad.proto"], []⟩
    ⟨["../../../../interactive_engine/executor/ir/proto/x.proto"], []⟩
    "p" "o" "bad.proto" ["good.proto"] ["late.proto"]
    (BuildError.calledProcessError
      (buildCmd ⟨"py"⟩ irProtoPath generatedDir
        "../../../../interactive_engine/executor/ir/proto/x.proto"))
    (by decide) (by decide) (by decide) (by decide)

/-- C8: for every entry of an explicitly supplied `proto_files` list, an
existing path is passed to the compiler unchanged and a non-existing one is
replaced by `proto_path` joined with the entry, with no further existence
check: with a creatable output directory and a clean compiler, the spawned
commands are exactly one per entry, carrying that resolved path. -/
theorem claim_C8_explicit_entries (env : Env) (exec : List String → Bool)
    (fs : FileSystem) (p out : String) (l : List String)
    (hm : fs.files.contains out = false)
    (hexec : ∀ c, exec c = true) :
    (generate_proto env exec fs p out (some l)).calls
      = l.map (fun f => buildCmd env p out
          (if pathExists (mkdirEffect fs out) f then f else osPathJoin p f)) := by
  have hl := protocLoop_success env exec (mkdirEffect fs out) p out l (fun g _ => hexec _)
  rw [generate_proto_eq_ok_some env exec fs p out l hm, calls_cons_makedirs, hl]
  show List.filterMap extractCall (List.map _ l) = _
  rw [filterMap_extractCall_map_call]
  rfl

/-- C8 witness: entry `x.proto` exists and is passed unchanged; entry
`y.proto` does not exist and is joined onto `p`. -/
theorem claim_C8_witness :
    (generate_proto ⟨"py"⟩ (fun _ => true) ⟨["x.proto"], []⟩ "p" "o"
        (some ["x.proto", "y.proto"])).calls
      = ["x.proto", "y.proto"].map (fun f => buildCmd ⟨"py"⟩ "p" "o"
          (if pathExists (mkdirEffect ⟨["x.proto"], []⟩ "o") f then f
           else osPathJoin "p" f)) :=
  claim_C8_explicit_entries ⟨"py"⟩ (fun _ => true) ⟨["x.proto"], []⟩ "p" "o"
    ["x.proto", "y.proto"] (by decide) (fun _ => rfl)

/-- C9: `generate_proto` creates the output directory before any compiler
invocation (the first event of its trace is the `makedirs` on `output_dir`,
which afterwards is present among the directories), and since the creation
uses `exist_ok=True` a pre-existing output directory never causes an error:
provided `output_dir` does not exist as a regular file, neither this call
nor a repeated call on the resulting filesystem with the same `output_dir`
can fail with `FileExistsError` on it. -/
theorem claim_C9_makedirs_first_exist_ok (env : Env) (exec : List String → Bool)
    (fs : FileSystem) (p out : String) (pfs : Option (List String))
    (p2 : String) (pfs2 : Option (List String))
    (hm : fs.files.contains out = false) :
    ((generate_proto env exec fs p out pfs).trace.head? = some (FsEvent.makedirs out))
    ∧ ((generate_proto env exec fs p out pfs).fs.dirs.contains out = true)
    ∧ ((generate_proto env exec fs p out pfs).err ≠ some (BuildError.fileExists out))
    ∧ ((generate_proto env exec (generate_proto env exec fs p out pfs).fs p2 out pfs2).err
        ≠ some (BuildError.fileExists out)) := by
  have hloop_err : ∀ (fsx : FileSystem) (px : String) (lx : List String),
      (protocLoop env exec fsx px out lx).2 ≠ some (BuildError.fileExists out) := by
    intro fsx px lx hcontra
    obtain ⟨c, hc⟩ := protocLoop_err_shape env exec fsx px out lx _ hcontra
    cases hc
  have hr := generate_proto_eq_ok env exec fs p out pfs hm
  have hdirs : (mkdirEffect fs out).dirs.contains out = true := by
    unfold mkdirEffect
    cases hd : fs.dirs.contains out with
    | true => simpa [hd] using hd
    | false => simp [hd]
  refine ⟨by rw [hr]; rfl, by rw [hr]; exact hdirs, ?_, ?_⟩
  · rw [hr]
    exact hloop_err _ _ _
  · have hm2 : (generate_proto env exec fs p out pfs).fs.files.contains out = false := by
      rw [hr]; exact hm
    rw [generate_proto_eq_ok env exec _ p2 out pfs2 hm2]
    exact hloop_err _ _ _

/-- C9 witness: the theorem at a filesystem where the output directory
already exists, with a second call repeated on the result. -/
theorem claim_C9_witness :
    ((generate_proto ⟨"py"⟩ (fun _ => true) ⟨["p/a.proto"], ["o"]⟩ "p" "o" none).trace.head?
      = some (FsEvent.makedirs "o"))
    ∧ ((generate_proto ⟨"py"⟩ (fun _ => true) ⟨["p/a.proto"], ["o"]⟩ "p" "o"
        none).fs.dirs.contains "o" = true)
    ∧ ((generate_proto ⟨"py"⟩ (fun _ => true) ⟨["p/a.proto"], ["o"]⟩ "p" "o" none).err
      ≠ some (BuildError.fileExists "o"))
    ∧ ((generate_proto ⟨"py"⟩ (fun _ => true)
        (generate_proto ⟨"py"⟩ (fun _ => true) ⟨["p/a.proto"], ["o"]⟩ "p" "o" none).fs
        "p" "o" none).err ≠ some (BuildError.fileExists "o")) :=
  claim_C9_makedirs_first_exist_ok ⟨"py"⟩ (fun _ => true) ⟨["p/a.proto"], ["o"]⟩
    "p" "o" none "p" none (by decide)

/-!
The Protocol Dispatcher of the specification.  The repository material
holds only the packaging script, so the dispatcher is modelled from the
spec's words: it retries idempotent operations on transient transport
failure up to a fixed bound and surfaces failure immediately for
non-idempotent operations; exhaustion surfaces a transport error.
-/

/-- Modelled from the spec: the Protocol Dispatcher is missing from the
source; a transport is modelled by the outcome of each successive attempt
(success, or a transient transport failure). -/
inductive TransportOutcome where
  | ok
  | transientFailure
deriving DecidableEq, Repr

/-- Modelled from the spec: the caller-visible outcome of an invocation —
success, or a surfaced `TransportError`. -/
inductive InvokeOutcome where
  | success
  | transportError
deriving DecidableEq, Repr

/-- Modelled from the spec: the fixed retry bound of the dispatcher. -/
def retryBound : Nat := 3

/-- Modelled from the spec: attempts available to an invocation — the
initial attempt plus up to `retryBound` retries for an idempotent
operation, and a single attempt for a non-idempotent one. -/
def attemptBudget (idempotent : Bool) : Nat :=
  if idempotent then retryBound + 1 else 1

/-- Modelled from the spec: try the transport until an attempt succeeds or
the budget is exhausted; exhaustion surfaces `TransportError`. -/
def dispatchAttempts (transport : Nat → TransportOutcome) : Nat → Nat → InvokeOutcome
  | 0, _ => InvokeOutcome.transportError
  | Nat.succ n, k =>
    match transport k with
    | TransportOutcome.ok => InvokeOutcome.success
    | TransportOutcome.transientFailure => dispatchAttempts transport n (k + 1)

/-- Modelled from the spec: the number of transport attempts
actually made within a given budget. -/
def attemptsTaken (transport : Nat → TransportOutcome) : Nat → Nat → Nat
  | 0, _ => 0
  | Nat.succ n, k =>
    match transport k with
    | TransportOutcome.ok => 1
    | TransportOutcome.transientFailure => 1 + attemptsTaken transport n (k + 1)

/-- Modelled from the spec: `invoke` of the Protocol Dispatcher for an
operation of the given idempotency over a transport. -/
def invoke (idempotent : Bool) (transport : Nat → TransportOutcome) : InvokeOutcome :=
  dispatchAttempts transport (attemptBudget idempotent) 0

theorem dispatchAttempts_all_fail (transport : Nat → TransportOutcome)
    (hfail : ∀ k, transport k = TransportOutcome.transientFailure) :
    ∀ n k, dispatchAttempts transport n k = InvokeOutcome.transportError
  | 0, _ => rfl
  | Nat.succ n, k => by
    simp only [dispatchAttempts, hfail k]
    exact dispatchAttempts_all_fail transport hfail n (k + 1)

theorem attemptsTaken_le (transport : Nat → TransportOutcome) :
    ∀ n k, attemptsTaken transport n k ≤ n
  | 0, _ => Nat.le_refl 0
  | Nat.succ n, k => by
    cases h : transport k with
    | ok => simp [attemptsTaken, h]
    | transientFailure =>
      have ih := attemptsTaken_le transport n (k + 1)
      simp only [attemptsTaken, h]
      omega

/-- C10: for an idempotent operation the dispatcher retries transient
transport failures with a bounded number of attempts: under a single
transient failure the invocation succeeds with no caller-visible error; a
non-idempotent operation under the same failure surfaces `TransportError`;
when every attempt fails transiently, retries are exhausted and
`TransportError` is surfaced; and the attempts made never exceed the fixed
budget `retryBound + 1`. -/
theorem claim_C10_retry_policy (transport texh : Nat → TransportOutcome)
    (h0 : transport 0 = TransportOutcome.transientFailure)
    (h1 : transport 1 = TransportOutcome.ok)
    (hexh : ∀ k, texh k = TransportOutcome.transientFailure) :
    invoke true transport = InvokeOutcome.success
    ∧ invoke false transport = InvokeOutcome.transportError
    ∧ invoke true texh = InvokeOutcome.transportError
    ∧ invoke false texh = InvokeOutcome.transportError
    ∧ attemptsTaken transport (attemptBudget true) 0 ≤ retryBound + 1 := by
  refine ⟨?_, ?_, dispatchAttempts_all_fail texh hexh _ _,
    dispatchAttempts_all_fail texh hexh _ _, attemptsTaken_le transport _ _⟩
  · show dispatchAttempts transport 4 0 = InvokeOutcome.success
    rw [show (4 : Nat) = Nat.succ 3 from rfl]
    rw [show dispatchAttempts transport (Nat.succ 3) 0
        = match transport 0 with
          | TransportOutcome.ok => InvokeOutcome.success
          | TransportOutcome.transientFailure => dispatchAttempts transport 3 1
        from rfl, h0]
    rw [show dispatchAttempts transport 3 1
        = match transport 1 with
          | TransportOutcome.ok => InvokeOutcome.success
          | TransportOutcome.transientFailure => dispatchAttempts transport 2 2
        from rfl, h1]
  · show dispatchAttempts transport 1 0 = InvokeOutcome.transportError
    rw [show dispatchAttempts transport 1 0
        = match transport 0 with
          | TransportOutcome.ok => InvokeOutcome.success
          | TransportOutcome.transientFailure => dispatchAttempts transport 0 1
        from rfl, h0]
    rfl

/-- C10 witness: a transport whose first attempt fails transiently and
whose second succeeds, and a transport that always fails transiently. -/
theorem claim_C10_witness :
    invoke true (fun k => if k = 0 then TransportOutcome.transientFailure
      else TransportOutcome.ok) = InvokeOutcome.success
    ∧ invoke false (fun k => if k = 0 then TransportOutcome.transientFailure
      else TransportOutcome.ok) = InvokeOutcome.transportError
    ∧ invoke true (fun _ => TransportOutcome.transientFailure)
      = InvokeOutcome.transportError
    ∧ invoke false (fun _ => TransportOutcome.transientFailure)
      = InvokeOutcome.transportError
    ∧ attemptsTaken (fun k => if k = 0 then TransportOutcome.transientFailure
      else TransportOutcome.ok) (attemptBudget true) 0 ≤ retryBound + 1 :=
  claim_C10_retry_policy
    (fun k => if k = 0 then TransportOutcome.transientFailure else TransportOutcome.ok)
    (fun _ => TransportOutcome.transientFailure) rfl rfl (fun _ => rfl)

end BuildProtoModel
